import Mathlib

/-!
Verification of the uniswap-trader paper-trading code base.

All numeric computation in the Python source is over IEEE doubles; the
embedding models them with exact rationals (`ℚ`).  Where the source relies
on IEEE special values (numpy division by zero producing `nan`/`inf`, which
does not raise), a dedicated carrier type mirrors that behaviour.
Python's recursion limit is modelled by an explicit fuel parameter:
a function returning `none` at fuel exhaustion corresponds to a call that
raises `RecursionError` for every recursion limit.
-/

namespace UniswapTrader

/-- Tokens known to `PaperWallet.__init__` plus one generic further token
(`MATIC`) standing for any token that is not pre-listed in the wallet. -/
inductive Token
  | ETH | WETH | USDC | USDT | DAI | MATIC
  deriving DecidableEq, Repr

/-- One entry of `PaperWallet.tx_history` (`paper_trader.py`, lines 127-140;
the static fields such as the address are omitted). -/
structure TxRec where
  tokenIn : Token
  tokenOut : Token
  amountIn : ℚ
  amountOut : ℚ
  gasCost : ℚ
  deriving DecidableEq, Repr

/-- `PaperWallet`: the `balances` dict (one field per token) together with
the transaction history (`paper_trader.py`, lines 45-54). -/
structure Wallet where
  eth : ℚ
  weth : ℚ
  usdc : ℚ
  usdt : ℚ
  dai : ℚ
  matic : ℚ
  txHistory : List TxRec
  deriving DecidableEq, Repr

/-- `balances.get(token, 0.0)` (`PaperWallet.get_balance`). -/
def Wallet.bal (w : Wallet) : Token → ℚ
  | .ETH => w.eth
  | .WETH => w.weth
  | .USDC => w.usdc
  | .USDT => w.usdt
  | .DAI => w.dai
  | .MATIC => w.matic

/-- `balances[token] = v`. -/
def Wallet.setBal (w : Wallet) : Token → ℚ → Wallet
  | .ETH, v => { w with eth := v }
  | .WETH, v => { w with weth := v }
  | .USDC, v => { w with usdc := v }
  | .USDT, v => { w with usdt := v }
  | .DAI, v => { w with dai := v }
  | .MATIC, v => { w with matic := v }

/-- `balances[token] += d`. -/
def Wallet.addBal (w : Wallet) (t : Token) (d : ℚ) : Wallet :=
  w.setBal t (w.bal t + d)

/-- The simulated gas cost of `PaperWallet.transfer`: `gas_cost = 0.01` ETH
(`paper_trader.py`, line 116). -/
def gasCostEth : ℚ := 1/100

/-- `PaperWallet.transfer` (`paper_trader.py`, lines 88-142): raises
(`none`) when `amount_in > balance_in`; otherwise debits `token_in`,
credits `token_out` with `amount_in * simulated_price`, deducts the gas
cost from ETH when neither side is ETH (without any balance check), and
records the transaction. -/
def Wallet.transfer (w : Wallet) (tIn tOut : Token) (amountIn price : ℚ) :
    Option (ℚ × ℚ × Wallet) :=
  if amountIn > w.bal tIn then none
  else
    let amountOut := amountIn * price
    let w1 := w.addBal tIn (-amountIn)
    let w2 := w1.addBal tOut amountOut
    let w3 := if tIn ≠ Token.ETH ∧ tOut ≠ Token.ETH then w2.addBal .ETH (-gasCostEth) else w2
    some (amountOut, gasCostEth,
      { w3 with txHistory := w3.txHistory ++ [⟨tIn, tOut, amountIn, amountOut, gasCostEth⟩] })

/-- The portfolio-value expression of the spec: cash plus the sum over all
held tokens of quantity times current price, for a price assignment `P`. -/
def totalValue (P : Token → ℚ) (w : Wallet) : ℚ :=
  P .ETH * w.eth + P .WETH * w.weth + P .USDC * w.usdc +
    P .USDT * w.usdt + P .DAI * w.dai + P .MATIC * w.matic

/-- `PaperWallet.total_usd` (`paper_trader.py`, lines 68-78): ETH and WETH
are valued at a fixed $3000, the three stables at $1, and any other token
is not counted. -/
def Wallet.totalUsd (w : Wallet) : ℚ :=
  w.eth * 3000 + w.weth * 3000 + w.usdc + w.usdt + w.dai

/-- The value of the gas charge of one swap under prices `P`: charged
exactly when neither side of the swap is ETH. -/
def gasValue (P : Token → ℚ) (tIn tOut : Token) : ℚ :=
  if tIn ≠ Token.ETH ∧ tOut ≠ Token.ETH then gasCostEth * P .ETH else 0

/-- `PaperWallet(initial_eth=10, initial_usdc=10000)`. -/
def initialWallet : Wallet :=
  { eth := 10, weth := 0, usdc := 10000, usdt := 0, dai := 0, matic := 0, txHistory := [] }

theorem transfer_totalValue (P : Token → ℚ) (w : Wallet) (tIn tOut : Token)
    (amt price out gas : ℚ) (w' : Wallet)
    (h : w.transfer tIn tOut amt price = some (out, gas, w')) :
    totalValue P w' =
      totalValue P w - amt * P tIn + amt * price * P tOut - gasValue P tIn tOut := by
  unfold Wallet.transfer at h
  split at h
  · exact absurd h (by simp)
  · simp only [Option.some_inj, Prod.mk.injEq] at h
    obtain ⟨-, -, hw⟩ := h
    subst hw
    unfold gasValue
    split
    · cases tIn <;> cases tOut <;>
        simp_all [totalValue, Wallet.addBal, Wallet.setBal, Wallet.bal] <;> ring
    · cases tIn <;> cases tOut <;>
        simp_all [totalValue, Wallet.addBal, Wallet.setBal, Wallet.bal] <;> ring

theorem Wallet.bal_setBal (w : Wallet) (t : Token) (v : ℚ) (u : Token) :
    (w.setBal t v).bal u = if u = t then v else w.bal u := by
  cases t <;> cases u <;> simp [Wallet.setBal, Wallet.bal]

theorem Wallet.bal_addBal (w : Wallet) (t : Token) (d : ℚ) (u : Token) :
    (w.addBal t d).bal u = if u = t then w.bal t + d else w.bal u := by
  simp [Wallet.addBal, Wallet.bal_setBal]

theorem Wallet.bal_txHistory_set (w : Wallet) (h : List TxRec) (u : Token) :
    ({ w with txHistory := h } : Wallet).bal u = w.bal u := by
  cases u <;> rfl

theorem Wallet.setBal_txHistory (w : Wallet) (t : Token) (v : ℚ) :
    (w.setBal t v).txHistory = w.txHistory := by
  cases t <;> rfl

theorem Wallet.addBal_txHistory (w : Wallet) (t : Token) (d : ℚ) :
    (w.addBal t d).txHistory = w.txHistory := by
  simp [Wallet.addBal, Wallet.setBal_txHistory]

/-- Balance bookkeeping of one `transfer`: `token_in` is debited,
`token_out` credited with `amount_in * simulated_price`, and ETH pays the
gas exactly when neither side of the swap is ETH. -/
theorem transfer_bal (w : Wallet) (tIn tOut : Token) (amt price out gas : ℚ)
    (w' : Wallet) (h : w.transfer tIn tOut amt price = some (out, gas, w')) (u : Token) :
    w'.bal u = w.bal u - (if u = tIn then amt else 0) + (if u = tOut then amt * price else 0) -
      (if u = Token.ETH ∧ tIn ≠ Token.ETH ∧ tOut ≠ Token.ETH then gasCostEth else 0) := by
  unfold Wallet.transfer at h
  split at h
  · exact absurd h (by simp)
  · simp only [Option.some_inj, Prod.mk.injEq] at h
    obtain ⟨-, -, hw⟩ := h
    subst hw
    rw [Wallet.bal_txHistory_set]
    by_cases hg : tIn ≠ Token.ETH ∧ tOut ≠ Token.ETH
    · rw [if_pos hg]
      have hgr : (u = Token.ETH ∧ tIn ≠ Token.ETH ∧ tOut ≠ Token.ETH) ↔ u = Token.ETH :=
        ⟨fun hc => hc.1, fun hu => ⟨hu, hg⟩⟩
      rw [if_congr hgr rfl rfl]
      by_cases h1 : u = tIn <;> by_cases h2 : u = tOut <;> by_cases h3 : u = Token.ETH <;>
        simp_all [Wallet.bal_addBal] <;> ring
    · rw [if_neg hg]
      have hgr : ¬(u = Token.ETH ∧ tIn ≠ Token.ETH ∧ tOut ≠ Token.ETH) :=
        fun hc => hg ⟨hc.2.1, hc.2.2⟩
      rw [if_neg hgr]
      by_cases h1 : u = tIn <;> by_cases h2 : u = tOut <;>
        simp_all [Wallet.bal_addBal] <;> ring

theorem transfer_guard (w : Wallet) (tIn tOut : Token) (amt price out gas : ℚ)
    (w' : Wallet) (h : w.transfer tIn tOut amt price = some (out, gas, w')) :
    amt ≤ w.bal tIn ∧ out = amt * price := by
  unfold Wallet.transfer at h
  split at h
  · exact absurd h (by simp)
  · simp only [Option.some_inj, Prod.mk.injEq] at h
    exact ⟨by linarith [not_lt.mp (by assumption)], h.1.symm⟩

/-- C1. Conservation of portfolio value.  A buy executed by
`PaperTrader.execute_buy` runs `wallet.transfer("USDC", token, amount_usd,
1/price)` and a sell runs `wallet.transfer(token, "USDC", sell_amount,
current_price)` (`paper_trader.py`, lines 296-301 and 381-386).  At an
unchanged price assignment `P` (with cash USDC worth 1), either operation
changes the total portfolio value `cash + Σ quantityᵢ · priceᵢ` by exactly
the value of the modeled gas cost (and by nothing else): the signed cash
delta is offset exactly by the value of the tokens bought or sold. -/
theorem buy_sell_conserves_value (P : Token → ℚ) (w : Wallet) (t : Token) (amt : ℚ)
    (hU : P .USDC = 1) (hp : 0 < P t) :
    (∀ out gas w', w.transfer .USDC t amt (1 / P t) = some (out, gas, w') →
        out * P t = amt ∧
        (t ≠ .USDC → w'.bal .USDC = w.bal .USDC - amt) ∧
        totalValue P w' = totalValue P w - gasValue P .USDC t) ∧
    (∀ out gas w', w.transfer t .USDC amt (P t) = some (out, gas, w') →
        out = amt * P t ∧
        (t ≠ .USDC → w'.bal .USDC = w.bal .USDC + amt * P t) ∧
        totalValue P w' = totalValue P w - gasValue P t .USDC) := by
  have hne : P t ≠ 0 := ne_of_gt hp
  constructor
  · intro out gas w' h
    have hb := transfer_guard w .USDC t amt (1 / P t) out gas w' h
    have hv := transfer_totalValue P w .USDC t amt (1 / P t) out gas w' h
    have hbal := transfer_bal w .USDC t amt (1 / P t) out gas w' h .USDC
    refine ⟨?_, ?_, ?_⟩
    · rw [hb.2]; field_simp
    · intro ht
      rw [if_pos rfl, if_neg (fun hh : Token.USDC = t => ht hh.symm),
        if_neg (fun hc => absurd hc.1 (by simp))] at hbal
      rw [hbal]; ring
    · rw [hv, hU]; field_simp
  · intro out gas w' h
    have hb := transfer_guard w t .USDC amt (P t) out gas w' h
    have hv := transfer_totalValue P w t .USDC amt (P t) out gas w' h
    have hbal := transfer_bal w t .USDC amt (P t) out gas w' h .USDC
    refine ⟨hb.2, ?_, ?_⟩
    · intro ht
      rw [if_neg (fun hh : Token.USDC = t => ht hh.symm), if_pos rfl,
        if_neg (fun hc => absurd hc.1 (by simp))] at hbal
      rw [hbal]; ring
    · rw [hv, hU]; ring

/-- Fixed price assignment used by the concrete witnesses: ETH/WETH at
$3000, the stables at $1, MATIC at $2. -/
def pricesW : Token → ℚ
  | .ETH => 3000
  | .WETH => 3000
  | .USDC => 1
  | .USDT => 1
  | .DAI => 1
  | .MATIC => 2

/-- The wallet after the concrete witness buy: 100 USDC → 50 MATIC at
price $2, with the 0.01 ETH gas paid. -/
def wBuyW : Wallet :=
  { eth := 999/100, weth := 0, usdc := 9900, usdt := 0, dai := 0, matic := 50,
    txHistory := [⟨.USDC, .MATIC, 100, 50, 1/100⟩] }

theorem buy_sell_conserves_value_witness :
    pricesW Token.USDC = 1 ∧ 0 < pricesW Token.MATIC ∧
    initialWallet.transfer .USDC .MATIC 100 (1 / pricesW .MATIC) = some (50, 1/100, wBuyW) ∧
    (50:ℚ) * pricesW .MATIC = 100 ∧
    wBuyW.bal .USDC = initialWallet.bal .USDC - 100 ∧
    totalValue pricesW wBuyW = totalValue pricesW initialWallet - gasValue pricesW .USDC .MATIC := by
  have ht : initialWallet.transfer .USDC .MATIC 100 (1 / pricesW .MATIC) =
      some (50, 1/100, wBuyW) := by
    norm_num [Wallet.transfer, initialWallet, pricesW, Wallet.addBal, Wallet.setBal,
      Wallet.bal, gasCostEth, wBuyW]
    rw [if_pos (⟨by decide, by decide⟩ : ¬Token.USDC = Token.ETH ∧ ¬Token.MATIC = Token.ETH)]
    norm_num
  have hmain := (buy_sell_conserves_value pricesW initialWallet .MATIC 100
    (by decide) (by decide)).1 50 (1/100) wBuyW ht
  exact ⟨by decide, by decide, ht, hmain.1, hmain.2.1 (by decide), hmain.2.2⟩

/-- `n` repeated `PaperTrader.execute_swap`-style ledger operations on the
default wallet: each step swaps 1 USDC into DAI at rate 1 (a swap not
involving ETH, so `transfer` charges the 0.01 ETH gas each time). -/
def swapDrain : Nat → Wallet
  | 0 => initialWallet
  | n + 1 =>
    match (swapDrain n).transfer .USDC .DAI 1 1 with
    | some (_, _, w') => w'
    | none => swapDrain n

theorem swapDrain_balances (n : Nat) (hn : n ≤ 10000) :
    (swapDrain n).usdc = 10000 - n ∧ (swapDrain n).eth = 10 - n / 100 ∧
      (swapDrain n).dai = n := by
  induction n with
  | zero => simp [swapDrain, initialWallet]
  | succ m ih =>
    have hm : m ≤ 10000 := le_of_lt (Nat.lt_of_lt_of_le (Nat.lt_succ_self m) hn)
    obtain ⟨hu, he, hd⟩ := ih hm
    have hm' : (m : ℚ) ≤ 9999 := by
      have : m ≤ 9999 := by omega
      exact_mod_cast this
    have hbal : ¬((1:ℚ) > (swapDrain m).bal .USDC) := by
      simp only [Wallet.bal, hu]
      push_neg
      linarith
    have hstep : swapDrain (m + 1) =
        { (swapDrain m) with
            usdc := (swapDrain m).usdc - 1 + 0,
            dai := (swapDrain m).dai + 1 * 1 + 0,
            eth := (swapDrain m).eth + 0 - gasCostEth,
            txHistory := (swapDrain m).txHistory ++
              [⟨.USDC, .DAI, 1, 1 * 1, gasCostEth⟩] } := by
      show (match (swapDrain m).transfer .USDC .DAI 1 1 with
        | some (_, _, w') => w'
        | none => swapDrain m) = _
      rw [Wallet.transfer, if_neg hbal]
      simp only []
      cases hw : swapDrain m
      simp [Wallet.addBal, Wallet.setBal, Wallet.bal, gasCostEth]
      constructor <;> ring
    rw [hstep]
    push_cast
    refine ⟨?_, ?_, ?_⟩ <;> simp [hu, he, hd, gasCostEth] <;> ring

/-- C9 counterexample.  After 1001 swaps that do not involve ETH, the
unchecked 0.01 ETH gas charge of `PaperWallet.transfer` has driven the ETH
balance of the default wallet below zero — contradicting the claim that no
sequence of ledger operations can drive any balance negative. -/
theorem gas_drives_eth_negative : (swapDrain 1001).eth < 0 := by
  have h := (swapDrain_balances 1001 (by omega)).2.1
  rw [h]
  norm_num

/-- C9 amended.  A successful `transfer` can only debit `token_in` by an
amount the guard has checked against the balance, so for a nonnegative
swapped amount the debited balance never goes negative; but the 0.01 ETH
gas charge of a swap not involving ETH is applied with no balance check at
all. -/
theorem transfer_debit_checked (w : Wallet) (tIn tOut : Token) (amt price out gas : ℚ)
    (w' : Wallet) (h : w.transfer tIn tOut amt price = some (out, gas, w'))
    (hne : tIn ≠ tOut) :
    amt ≤ w.bal tIn ∧ w'.bal tIn = w.bal tIn - amt ∧ 0 ≤ w'.bal tIn ∧
      (tIn ≠ .ETH → tOut ≠ .ETH → w'.bal .ETH = w.bal .ETH - gasCostEth) := by
  have hg := transfer_guard w tIn tOut amt price out gas w' h
  have hbal := transfer_bal w tIn tOut amt price out gas w' h tIn
  rw [if_pos rfl, if_neg (fun hh : tIn = tOut => hne hh)] at hbal
  have htIn : w'.bal tIn = w.bal tIn - amt := by
    by_cases hE : tIn = Token.ETH
    · rw [if_neg (fun hc => hc.2.1 hE)] at hbal
      rw [hbal]; ring
    · by_cases hOE : tOut = Token.ETH
      · rw [if_neg (fun hc => hc.2.2 hOE)] at hbal
        rw [hbal]; ring
      · rw [if_neg (fun hc => hE hc.1)] at hbal
        rw [hbal]; ring
  refine ⟨hg.1, htIn, by rw [htIn]; linarith [hg.1], ?_⟩
  intro hIE hOE
  have hbE := transfer_bal w tIn tOut amt price out gas w' h .ETH
  rw [if_neg (fun hh : Token.ETH = tIn => hIE hh.symm),
    if_neg (fun hh : Token.ETH = tOut => hOE hh.symm),
    if_pos ⟨rfl, hIE, hOE⟩] at hbE
  rw [hbE]; ring

/-- The wallet after the concrete witness swap: 1 USDC → 1 DAI, with the
0.01 ETH gas paid. -/
def wSwapW : Wallet :=
  { eth := 999/100, weth := 0, usdc := 9999, usdt := 0, dai := 1, matic := 0,
    txHistory := [⟨.USDC, .DAI, 1, 1, 1/100⟩] }

theorem transfer_debit_checked_witness :
    Token.USDC ≠ Token.DAI ∧
    initialWallet.transfer .USDC .DAI 1 1 = some (1, 1/100, wSwapW) ∧
    (1:ℚ) ≤ initialWallet.bal .USDC ∧
    wSwapW.bal .USDC = initialWallet.bal .USDC - 1 ∧
    0 ≤ wSwapW.bal .USDC ∧
    wSwapW.bal .ETH = initialWallet.bal .ETH - gasCostEth := by
  have ht : initialWallet.transfer .USDC .DAI 1 1 = some (1, 1/100, wSwapW) := by
    norm_num [Wallet.transfer, initialWallet, Wallet.addBal, Wallet.setBal,
      Wallet.bal, gasCostEth, wSwapW]
    rw [if_pos (⟨by decide, by decide⟩ : ¬Token.USDC = Token.ETH ∧ ¬Token.DAI = Token.ETH)]
    norm_num
  have hmain := transfer_debit_checked initialWallet .USDC .DAI 1 1 1 (1/100) wSwapW ht
    (by decide)
  exact ⟨by decide, ht, hmain.1, hmain.2.1, hmain.2.2.1,
    hmain.2.2.2 (by decide) (by decide)⟩

/-- The market-data queries `assess_token_risk` makes
(`MarketDataProvider.get_volatility` may return `None`, modelled by
`Option`), plus the current price used by `execute_buy`. -/
structure MarketData where
  price : Token → ℚ
  volatility : Token → Option ℚ
  volume : Token → ℚ
  marketCap : Token → ℚ

/-- Python truthiness of an optional float: `None` and `0.0` are falsy. -/
def truthy : Option ℚ → Bool
  | none => false
  | some q => decide (q ≠ 0)

inductive RiskLevel
  | low | medium | high
  deriving DecidableEq, Repr

/-- `RiskMetrics` (`risk.py`, lines 27-38; the fields that are constant in
the source are omitted). -/
structure RiskMetrics where
  riskScore : ℚ
  riskLevel : RiskLevel
  maxPositionSize : ℚ
  volatility : ℚ
  liquidityRisk : Bool
  deriving DecidableEq, Repr

/-- The `RiskManager` state consulted by `can_open_position` and
`calculate_position_size` (`risk.py`, lines 84-104). -/
structure RiskState where
  emergencyStop : Bool
  riskPositions : List Token
  currentPortfolioValue : ℚ
  dailyStartValue : ℚ
  deriving DecidableEq, Repr

/-- `RISK_CONFIG["max_open_positions"]` (`config.py`). -/
def maxOpenPositions : Nat := 5

/-- `RISK_CONFIG["max_position_size_percent"]`. -/
def maxPositionSizePercent : ℚ := 1/10

/-- `RISK_CONFIG["daily_loss_limit_percent"] / 100`. -/
def dailyLossLimit : ℚ := 1/10

mutual

/-- `RiskManager.assess_token_risk` (`risk.py`, lines 296-366).  The `fuel`
parameter models Python's recursion limit: line 359 calls
`calculate_position_size(token, 0.5)`, so the two functions recurse into
each other and `none` models the `RecursionError`. -/
def assessTokenRisk (fuel : Nat) (md : MarketData) (rs : RiskState) (t : Token) :
    Option RiskMetrics :=
  match fuel with
  | 0 => none
  | fuel + 1 =>
    let vol := md.volatility t
    let volScore : ℚ :=
      if truthy vol then
        match vol with
        | some v => if v > 2 then 40 else if v > 1 then 30 else if v > 1/2 then 20 else 10
        | none => 0
      else 0
    let mc := md.marketCap t
    let liqScore : ℚ := if mc < 1000000 then 30 else if mc < 10000000 then 20 else 0
    let liqRisk : Bool := decide (mc < 10000000)
    let volu := md.volume t
    let voluScore : ℚ := if volu < 10000 then 20 else if volu < 100000 then 10 else 0
    let score := volScore + liqScore + voluScore
    let level : RiskLevel := if score ≥ 60 then .high else if score ≥ 30 then .medium else .low
    match calculatePositionSize fuel md rs t (1/2) with
    | none => none
    | some mps =>
      some { riskScore := score, riskLevel := level, maxPositionSize := mps,
             volatility := match vol with
               | none => 1/2
               | some v => if v = 0 then 1/2 else v,
             liquidityRisk := liqRisk }

/-- `RiskManager.calculate_position_size` (`risk.py`, lines 159-217), with
`portfolio_value=None` so that the manager's own portfolio value is used.
Line 180 calls `assess_token_risk`, closing the mutual recursion. -/
def calculatePositionSize (fuel : Nat) (md : MarketData) (rs : RiskState) (t : Token)
    (conf : ℚ) : Option ℚ :=
  match fuel with
  | 0 => none
  | fuel + 1 =>
    match assessTokenRisk fuel md rs t with
    | none => none
    | some risk =>
      let baseSize := rs.currentPortfolioValue * maxPositionSizePercent
      let riskAdj : ℚ :=
        if risk.riskLevel = .high then 1/2 else if risk.riskLevel = .medium then 3/4 else 1
      let volAdj : ℚ :=
        if risk.volatility = 0 then 1
        else if risk.volatility > 1 then 1/2
        else if risk.volatility > 1/2 then 3/4 else 1
      let ps := baseSize * conf * riskAdj * volAdj
      some (if ps < 100 then 100 else ps)

end

/-- The mutual recursion of `assess_token_risk` and
`calculate_position_size` has no base case: whatever the recursion limit,
neither call ever produces a value. -/
theorem riskAssessment_diverges (fuel : Nat) (md : MarketData) (rs : RiskState) (t : Token) :
    assessTokenRisk fuel md rs t = none ∧
      ∀ conf, calculatePositionSize fuel md rs t conf = none := by
  induction fuel with
  | zero => exact ⟨rfl, fun _ => rfl⟩
  | succ n ih =>
    refine ⟨?_, fun conf => ?_⟩
    · rw [assessTokenRisk]
      rw [ih.2 (1/2)]
    · rw [calculatePositionSize]
      rw [ih.1]

/-- The outcomes of `can_open_position`: the `(bool, reason-string)` pair. -/
inductive Reason
  | emergencyStopActive | maxPositionsReached | dailyLossLimitReached | sizeLimitExceeded
  | highRiskLowConfidence | allowed
  deriving DecidableEq, Repr

/-- `RiskManager.can_open_position` (`risk.py`, lines 115-157).  The early
checks return without recursion; the token-specific risk check at line 153
calls `assess_token_risk`, so `none` models the `RecursionError` escaping
from it. -/
def canOpenPosition (fuel : Nat) (md : MarketData) (rs : RiskState) (t : Token)
    (size conf : ℚ) : Option (Bool × Reason) :=
  if rs.emergencyStop then some (false, .emergencyStopActive)
  else if maxOpenPositions ≤ rs.riskPositions.length then some (false, .maxPositionsReached)
  else
    let dailyPnl := rs.currentPortfolioValue - rs.dailyStartValue
    let dailyPct := if 0 < rs.dailyStartValue then dailyPnl / rs.dailyStartValue else 0
    if dailyPct < -dailyLossLimit then some (false, .dailyLossLimitReached)
    else if rs.currentPortfolioValue * maxPositionSizePercent < size then
      some (false, .sizeLimitExceeded)
    else
      match assessTokenRisk fuel md rs t with
      | none => none
      | some rm =>
        if rm.riskLevel = .high ∧ conf < 4/5 then some (false, .highRiskLowConfidence)
        else some (true, .allowed)

/-- The risk state created by `PaperTrader.__init__` for the default wallet:
no emergency stop, no recorded positions, portfolio value
`wallet.total_usd = 10·3000 + 10000 = 40000`. -/
def initialRiskState : RiskState :=
  { emergencyStop := false, riskPositions := [],
    currentPortfolioValue := 40000, dailyStartValue := 40000 }

theorem canOpen_initial_none (fuel : Nat) (md : MarketData) (t : Token)
    (size conf : ℚ) (hsize : size ≤ 4000) :
    canOpenPosition fuel md initialRiskState t size conf = none := by
  have ha := (riskAssessment_diverges fuel md initialRiskState t).1
  rw [canOpenPosition]
  norm_num [initialRiskState, maxOpenPositions, dailyLossLimit, maxPositionSizePercent, ha]
  rw [if_neg (not_lt.mpr hsize)]
  have ha' : assessTokenRisk fuel md
      { emergencyStop := false, riskPositions := [], currentPortfolioValue := 40000,
        dailyStartValue := 40000 } t = none := ha
  rw [ha']

/-- C3.  The risk queries invoked during a tick do not all terminate with a
value: `assess_token_risk` and `calculate_position_size` recurse into each
other unconditionally (`risk.py` line 359 and line 180) and never return,
and `can_open_position` only returns on its early refusal paths — on the
initial risk state, any request within the size limit reaches the risk
assessment and dies with it.  `fuel` ranges over every recursion limit. -/
theorem risk_queries_never_return (fuel : Nat) (md : MarketData) (t : Token)
    (conf size : ℚ) (hsize : size ≤ 4000) :
    assessTokenRisk fuel md initialRiskState t = none ∧
    calculatePositionSize fuel md initialRiskState t conf = none ∧
    canOpenPosition fuel md initialRiskState t size conf = none := by
  obtain ⟨ha, hc⟩ := riskAssessment_diverges fuel md initialRiskState t
  exact ⟨ha, hc conf, canOpen_initial_none fuel md t size conf hsize⟩

/-- Market data used by concrete witnesses: MATIC at $2, mild volatility,
healthy volume and market cap. -/
def mdW : MarketData :=
  { price := fun _ => 2, volatility := fun _ => some 1, volume := fun _ => 50000,
    marketCap := fun _ => 500000000 }

theorem risk_queries_never_return_witness :
    (100 : ℚ) ≤ 4000 ∧
      canOpenPosition 1000 mdW initialRiskState .MATIC 100 1 = none :=
  ⟨by norm_num, (risk_queries_never_return 1000 mdW .MATIC 1 100 (by norm_num)).2.2⟩

/-- `RISK_CONFIG["stop_loss_percent"] / 100` (`risk.py`, line 242). -/
def baseStopPct : ℚ := 5/100

/-- `RISK_CONFIG["take_profit_percent"] / 100` (`risk.py`, line 283). -/
def baseTakeProfitPct : ℚ := 15/100

/-- `confidence_stop_multiplier = 1.0 + (1 - confidence) * 0.5`. -/
def confidenceStopMultiplier (conf : ℚ) : ℚ := 1 + (1 - conf) * (1/2)

/-- The stop percentage of `calculate_stop_loss` after the volatility
adjustment and the 20% absolute cap (`risk.py`, lines 241-253), as a
function of the `RiskMetrics.volatility` input. -/
def cappedStopPct (vol : ℚ) : ℚ :=
  min (if vol ≠ 0 ∧ vol > 1/2 then baseStopPct * (vol * 2) else baseStopPct) (1/5)

/-- The price formula of `calculate_stop_loss` (`risk.py`, lines 255-261). -/
def stopLossPrice (entry conf vol : ℚ) (isLong : Bool) : ℚ :=
  if isLong then entry * (1 - cappedStopPct vol * confidenceStopMultiplier conf)
  else entry * (1 + cappedStopPct vol * confidenceStopMultiplier conf)

/-- `RiskManager.calculate_take_profit` (`risk.py`, lines 263-294): it makes
no market-data call, so it is a pure price formula. -/
def takeProfitPrice (entry conf : ℚ) (isLong : Bool) : ℚ :=
  if isLong then entry * (1 + baseTakeProfitPct * (1 + conf * (1/2)))
  else entry * (1 - baseTakeProfitPct * (1 + conf * (1/2)))

/-- `RiskManager.calculate_stop_loss` (`risk.py`, lines 219-261): line 239
calls `assess_token_risk` (which never returns, see
`riskAssessment_diverges`); given a returned assessment the result is
`stopLossPrice` at the assessed volatility. -/
def calculateStopLoss (fuel : Nat) (md : MarketData) (rs : RiskState) (t : Token)
    (entry : ℚ) (isLong : Bool) (conf : ℚ) : Option ℚ :=
  (assessTokenRisk fuel md rs t).map fun rm => stopLossPrice entry conf rm.volatility isLong

/-- C5.  Stop/take ordering at creation: for every positive entry price,
confidence in `[0,1]` and every volatility input, the long-position
protective levels computed by the stop-loss and take-profit formulas
satisfy `stop_loss < entry_price < take_profit`, the capped stop
percentage never exceeding the absolute 20% maximum. -/
theorem stop_take_ordering (entry conf vol : ℚ) (hE : 0 < entry)
    (h0 : 0 ≤ conf) (h1 : conf ≤ 1) :
    stopLossPrice entry conf vol true < entry ∧
    entry < takeProfitPrice entry conf true ∧
    cappedStopPct vol ≤ 1/5 := by
  have hcap : cappedStopPct vol ≤ 1/5 := min_le_right _ _
  have hpos : 1/20 ≤ cappedStopPct vol := by
    rw [cappedStopPct]
    rcases le_or_lt vol (1/2) with hv | hv
    · rw [if_neg (fun hc => absurd hc.2 (not_lt.mpr hv))]
      norm_num [baseStopPct]
    · rw [if_pos ⟨by positivity, hv⟩]
      rw [le_min_iff]
      constructor
      · rw [baseStopPct]; nlinarith
      · norm_num
  have hmul : 1 ≤ confidenceStopMultiplier conf ∧ confidenceStopMultiplier conf ≤ 3/2 := by
    rw [confidenceStopMultiplier]
    constructor <;> nlinarith
  refine ⟨?_, ?_, hcap⟩
  · rw [stopLossPrice, if_pos rfl]
    have hpm : 0 < cappedStopPct vol * confidenceStopMultiplier conf :=
      mul_pos (lt_of_lt_of_le (by norm_num) hpos) (lt_of_lt_of_le zero_lt_one hmul.1)
    nlinarith [mul_pos hE hpm]
  · rw [takeProfitPrice, if_pos rfl, baseTakeProfitPct]
    nlinarith

theorem stop_take_ordering_witness :
    (0:ℚ) < 1 ∧ (0:ℚ) ≤ 1/2 ∧ (1/2:ℚ) ≤ 1 ∧
    (stopLossPrice 1 (1/2) 3 true < 1 ∧
      1 < takeProfitPrice 1 (1/2) true ∧
      cappedStopPct 3 ≤ 1/5) :=
  ⟨by norm_num, by norm_num, by norm_num,
    stop_take_ordering 1 (1/2) 3 (by norm_num) (by norm_num) (by norm_num)⟩

/-- The position dict recorded by `PaperTrader.execute_buy`
(`paper_trader.py`, lines 304-315; timestamps and the tx dict omitted). -/
structure PositionRec where
  token : Token
  sizeUsd : ℚ
  tokenAmount : ℚ
  entryPrice : ℚ
  stopLoss : ℚ
  takeProfit : ℚ
  confidence : ℚ
  deriving DecidableEq, Repr

/-- The `PaperTrader` state touched by `execute_buy`: wallet, per-token
positions dict, closed-trade history, and the embedded risk manager
(`paper_trader.py`, lines 204-227; the peak/trough tracking is omitted). -/
structure TraderState where
  wallet : Wallet
  positions : Token → Option PositionRec
  tradeHistory : List PositionRec
  risk : RiskState

/-- How a call of `execute_buy` can end.  `refused` is the
`{"success": False, "reason": ...}` dict of a failed risk check;
`recursionError` is the uncaught `RecursionError` that escapes from the
risk calls made before the `try` block; `caughtError` is an exception
raised inside the `try` block and swallowed at line 339. -/
inductive BuyOutcome
  | success
  | refused (r : Reason)
  | invalidPrice
  | insufficientBalance
  | caughtError
  | recursionError
  deriving DecidableEq, Repr

def BuyOutcome.isRefusal : BuyOutcome → Bool
  | .refused _ => true
  | _ => false

/-- `PaperTrader.execute_buy` (`paper_trader.py`, lines 250-344): risk
check, price check, position sizing, the USDC→token swap, then the
position record.  The stop-loss computation sits inside the `try` block,
so its `RecursionError` would be caught after the swap already mutated the
wallet. -/
def executeBuy (fuel : Nat) (md : MarketData) (s : TraderState) (t : Token)
    (amountUsd conf : ℚ) : BuyOutcome × TraderState :=
  match canOpenPosition fuel md s.risk t amountUsd conf with
  | none => (.recursionError, s)
  | some (false, r) => (.refused r, s)
  | some (true, _) =>
    let price := md.price t
    if price ≤ 0 then (.invalidPrice, s)
    else
      match calculatePositionSize fuel md s.risk t conf with
      | none => (.recursionError, s)
      | some _ =>
        match s.wallet.transfer .USDC t amountUsd (1 / price) with
        | none => (.insufficientBalance, s)
        | some (tokenOut, _, w') =>
          match calculateStopLoss fuel md s.risk t price true conf with
          | none => (.caughtError, { s with wallet := w' })
          | some sl =>
            (.success,
             { s with wallet := w',
                      positions := fun u =>
                        if u = t then
                          some { token := t, sizeUsd := amountUsd, tokenAmount := tokenOut,
                                 entryPrice := price, stopLoss := sl,
                                 takeProfit := takeProfitPrice price conf true,
                                 confidence := conf }
                        else s.positions u })

theorem canOpen_never_allows (fuel : Nat) (md : MarketData) (rs : RiskState) (t : Token)
    (size conf : ℚ) :
    canOpenPosition fuel md rs t size conf = none ∨
    ∃ r, canOpenPosition fuel md rs t size conf = some (false, r) := by
  rw [canOpenPosition]
  rw [(riskAssessment_diverges fuel md rs t).1]
  simp only []
  split_ifs <;> first | exact Or.inl rfl | exact Or.inr ⟨_, rfl⟩

/-- C2 amended.  `execute_buy` performs no per-symbol open-position check:
its outcome is the same whatever the positions map holds, so a second buy
in an open symbol is never refused on that ground.  Every call in fact
either is refused by an early risk check or aborts with the
`RecursionError` of the risk assessment, each time leaving wallet,
positions and trade history unchanged, and no call ever succeeds. -/
theorem executeBuy_ignores_positions (fuel : Nat) (md : MarketData) (s : TraderState)
    (t : Token) (amountUsd conf : ℚ) :
    (executeBuy fuel md s t amountUsd conf).2 = s ∧
    (executeBuy fuel md s t amountUsd conf).1 ≠ .success ∧
    ∀ p, (executeBuy fuel md { s with positions := p } t amountUsd conf).1 =
      (executeBuy fuel md s t amountUsd conf).1 := by
  obtain h | ⟨r, h⟩ := canOpen_never_allows fuel md s.risk t amountUsd conf <;>
    refine ⟨?_, ?_, fun p => ?_⟩ <;> simp [executeBuy, h]

/-- A position already open in MATIC, as `execute_buy` would have recorded
it. -/
def posW : PositionRec :=
  { token := .MATIC, sizeUsd := 100, tokenAmount := 50, entryPrice := 2,
    stopLoss := 19/10, takeProfit := 23/10, confidence := 1 }

/-- A trader state with an open MATIC position on the default wallet. -/
def sOpen : TraderState :=
  { wallet := initialWallet,
    positions := fun u => if u = Token.MATIC then some posW else none,
    tradeHistory := [], risk := initialRiskState }

/-- C2 counterexample.  With a MATIC position open, a further
`execute_buy` on MATIC (amount 100, confidence 1, recursion limit 1000) is
not refused: it dies with the uncaught `RecursionError` of the risk
assessment, so the claim that a second buy is always refused fails. -/
theorem second_buy_not_refused :
    sOpen.positions .MATIC = some posW ∧
    (executeBuy 1000 mdW sOpen .MATIC 100 1).1 = .recursionError ∧
    ((executeBuy 1000 mdW sOpen .MATIC 100 1).1.isRefusal = false) := by
  have h : canOpenPosition 1000 mdW sOpen.risk .MATIC 100 1 = none :=
    canOpen_initial_none 1000 mdW .MATIC 100 1 (by norm_num)
  refine ⟨by simp [sOpen], ?_, ?_⟩ <;> simp [executeBuy, h, BuyOutcome.isRefusal]

/-- `TradeSignal.action`. -/
inductive TAction
  | buy | sell | hold
  deriving DecidableEq, Repr

/-- `TradeSignal` (`strategies.py`, lines 51-59): action and confidence
(token, strategy name and timestamp carry no information for the claims). -/
structure Signal where
  action : TAction
  confidence : ℚ
  deriving DecidableEq, Repr

/-- Number of signals voting for a given action. -/
def countAction (a : TAction) (l : List Signal) : Nat :=
  (l.filter fun s => s.action = a).length

/-- `StrategyManager.get_consensus_signal` (`strategies.py`, lines 701-745)
as a function of the signal list returned by `analyze`: empty list gives
hold/0; otherwise the action compares the buy and sell counts only, and
the confidence is the mean over all signals. -/
def getConsensusSignal (signals : List Signal) : Signal :=
  if signals.isEmpty then ⟨.hold, 0⟩
  else
    let buyCount := countAction .buy signals
    let sellCount := countAction .sell signals
    let avg := (signals.map Signal.confidence).sum / signals.length
    ⟨if sellCount < buyCount then .buy else if buyCount < sellCount then .sell else .hold, avg⟩

/-- C4 counterexample.  Three signals: one buy (confidence 0.6) and two
holds (confidence 0).  Hold has the strict majority of the buy/sell/hold
votes (2 of 3), yet the consensus action is buy — hold votes never weigh
in the comparison — so the claimed majority rule fails.  The confidence of
0.2 is the mean over all three signals, as claimed. -/
theorem consensus_overrules_hold_majority :
    countAction .hold [⟨.buy, 3/5⟩, ⟨.hold, 0⟩, ⟨.hold, 0⟩] = 2 ∧
    countAction .buy [⟨.buy, 3/5⟩, ⟨.hold, 0⟩, ⟨.hold, 0⟩] = 1 ∧
    countAction .sell [⟨.buy, 3/5⟩, ⟨.hold, 0⟩, ⟨.hold, 0⟩] = 0 ∧
    (getConsensusSignal [⟨.buy, 3/5⟩, ⟨.hold, 0⟩, ⟨.hold, 0⟩]).action = .buy ∧
    (getConsensusSignal [⟨.buy, 3/5⟩, ⟨.hold, 0⟩, ⟨.hold, 0⟩]).confidence = 1/5 := by
  refine ⟨by decide, by decide, by decide, by decide, ?_⟩
  rw [getConsensusSignal]
  norm_num [List.isEmpty_cons]

/-- C4 amended.  For every nonempty signal list, the consensus confidence
is the arithmetic mean of all the individual confidences, and the action
is decided by the buy and sell counts alone: buy when buys strictly
outnumber sells, sell in the symmetric case, and hold otherwise (hold
votes are counted but never determine the action). -/
theorem consensus_characterisation (signals : List Signal) (hne : signals ≠ []) :
    (getConsensusSignal signals).confidence =
      (signals.map Signal.confidence).sum / signals.length ∧
    ((getConsensusSignal signals).action = .buy ↔
      countAction .sell signals < countAction .buy signals) ∧
    ((getConsensusSignal signals).action = .sell ↔
      countAction .buy signals < countAction .sell signals) ∧
    ((getConsensusSignal signals).action = .hold ↔
      countAction .buy signals = countAction .sell signals) := by
  rw [getConsensusSignal, if_neg (by simpa using hne)]
  refine ⟨rfl, ?_, ?_, ?_⟩ <;> dsimp only [] <;> split_ifs with h1 h2 <;>
    simp <;> omega

theorem consensus_characterisation_witness :
    ([⟨TAction.buy, 1⟩, ⟨TAction.sell, 0⟩, ⟨TAction.buy, 1/2⟩] : List Signal) ≠ [] ∧
    (getConsensusSignal [⟨TAction.buy, 1⟩, ⟨TAction.sell, 0⟩, ⟨TAction.buy, 1/2⟩]).confidence =
      (([⟨TAction.buy, 1⟩, ⟨TAction.sell, 0⟩, ⟨TAction.buy, 1/2⟩] : List Signal).map
        Signal.confidence).sum / 3 ∧
    ((getConsensusSignal [⟨TAction.buy, 1⟩, ⟨TAction.sell, 0⟩, ⟨TAction.buy, 1/2⟩]).action = .buy ↔
      countAction .sell [⟨TAction.buy, 1⟩, ⟨TAction.sell, 0⟩, ⟨TAction.buy, 1/2⟩] <
        countAction .buy [⟨TAction.buy, 1⟩, ⟨TAction.sell, 0⟩, ⟨TAction.buy, 1/2⟩]) := by
  have h := consensus_characterisation
    [⟨TAction.buy, 1⟩, ⟨TAction.sell, 0⟩, ⟨TAction.buy, 1/2⟩] (by decide)
  exact ⟨by decide, h.1, h.2.1⟩

/-- The market-regime labels of `detect_market_regime`. -/
inductive Regime
  | unknown | trendingUp | trendingDown | choppy
  deriving DecidableEq, Repr

/-- `sum(abs(recent[i] - recent[i-1]) / recent[i-1] * 100 for i in ...)`:
the summed absolute step-to-step percent moves of a price list. -/
def stepSum : List ℚ → ℚ
  | a :: b :: rest => |b - a| / a * 100 + stepSum (b :: rest)
  | _ => 0

/-- `price_history[-12:]`. -/
def last12 (ph : List ℚ) : List ℚ := ph.drop (ph.length - 12)

/-- `change_pct` of `detect_market_regime`: percent change from the first
to the last of the final 12 samples. -/
def regimeChange (ph : List ℚ) : ℚ :=
  ((last12 ph).getLastD 0 / (last12 ph).headD 0 - 1) * 100

/-- `volatility` of `detect_market_regime`: the summed step percents of the
final 12 samples divided by `len(recent)` = 12 (not by the number of
steps, 11). -/
def regimeVol (ph : List ℚ) : ℚ :=
  stepSum (last12 ph) / (last12 ph).length

/-- `detect_market_regime` (`auto_paper_trader.py`, lines 103-122). -/
def detectMarketRegime (ph : List ℚ) : Regime :=
  if ph.length < 12 then .unknown
  else if 3 < regimeChange ph ∧ regimeVol ph < 2 then .trendingUp
  else if regimeChange ph < -3 ∧ regimeVol ph < 2 then .trendingDown
  else .choppy

/-- Modelled from the spec's words for C6: the same classifier but with the
start-to-end change of the whole window and the true mean (over the
`length - 1` steps) of the absolute step-to-step percent moves. -/
def detectMarketRegimeSpec (ph : List ℚ) : Regime :=
  if ph.length < 12 then .unknown
  else
    let change := (ph.getLastD 0 / ph.headD 0 - 1) * 100
    let meanVol := stepSum ph / ((ph.length : ℚ) - 1)
    if 3 < change ∧ meanVol < 2 then .trendingUp
    else if change < -3 ∧ meanVol < 2 then .trendingDown
    else .choppy

/-- The 12-sample counterexample window: one +23% jump then flat. -/
def windowW : List ℚ := [100, 123, 123, 123, 123, 123, 123, 123, 123, 123, 123, 123]

/-- C6 counterexample.  On `windowW` the summed step volatility is 23, so
the mean over the 11 steps is 23/11 > 2 and the claimed rule classifies the
window as choppy; the code divides by 12 instead (23/12 < 2) and returns
trending_up. -/
theorem regime_divisor_mismatch :
    detectMarketRegime windowW = .trendingUp ∧
    detectMarketRegimeSpec windowW = .choppy := by
  have hlast : last12 windowW = windowW := by
    rw [last12]
    norm_num [windowW]
  have hstep : stepSum windowW = 23 := by
    rw [windowW]
    simp only [stepSum]
    rw [show |(123:ℚ) - 100| = 23 from by rw [abs_of_nonneg] <;> norm_num]
    norm_num
  have hchange : regimeChange windowW = 23 := by
    rw [regimeChange, hlast, windowW]
    norm_num [List.getLastD]
  have hvol : regimeVol windowW = 23/12 := by
    rw [regimeVol, hlast, hstep]
    norm_num [windowW]
  constructor
  · rw [detectMarketRegime, if_neg (by decide),
      if_pos ⟨by rw [hchange]; norm_num, by rw [hvol]; norm_num⟩]
  · rw [detectMarketRegimeSpec, if_neg (by decide)]
    have hc : ((windowW.getLastD 0 / windowW.headD 0 - 1) * 100 : ℚ) = 23 := by
      rw [windowW]
      norm_num [List.getLastD]
    have hv : (stepSum windowW / ((windowW.length : ℚ) - 1) : ℚ) = 23/11 := by
      rw [hstep, windowW]
      norm_num
    simp only [hc, hv]
    rw [if_neg (by norm_num), if_neg (by norm_num)]

/-- C6 amended.  `detect_market_regime` is a pure function of the last 12
samples: below 12 samples it returns unknown; otherwise it returns
trending_up exactly when the percent change across the last 12 samples
exceeds +3 and the summed absolute step percents divided by 12 (not the
mean over the 11 steps) is below 2, trending_down in the symmetric case,
and choppy otherwise. -/
theorem regime_characterisation (ph : List ℚ) :
    (ph.length < 12 → detectMarketRegime ph = .unknown) ∧
    (12 ≤ ph.length →
      ((detectMarketRegime ph = .trendingUp ↔ 3 < regimeChange ph ∧ regimeVol ph < 2) ∧
       (detectMarketRegime ph = .trendingDown ↔ regimeChange ph < -3 ∧ regimeVol ph < 2) ∧
       (detectMarketRegime ph = .choppy ↔
         2 ≤ regimeVol ph ∨ (regimeChange ph ≤ 3 ∧ -3 ≤ regimeChange ph)))) ∧
    detectMarketRegime ph = detectMarketRegime (last12 ph) := by
  have hlen : (last12 ph).length = ph.length - (ph.length - 12) := List.length_drop _ _
  refine ⟨fun h => by rw [detectMarketRegime, if_pos h], fun h => ?_, ?_⟩
  · rw [detectMarketRegime, if_neg (by omega)]
    split_ifs with h1 h2
    · refine ⟨⟨fun _ => h1, fun _ => rfl⟩,
        ⟨fun hx => absurd hx (by simp), fun hx => absurd hx.1 (by linarith [h1.1])⟩,
        ⟨fun hx => absurd hx (by simp), fun hx => ?_⟩⟩
      rcases hx with hv | hc
      · linarith [h1.2]
      · linarith [h1.1, hc.1]
    · refine ⟨⟨fun hx => absurd hx (by simp), fun hx => absurd hx h1⟩,
        ⟨fun _ => h2, fun _ => rfl⟩,
        ⟨fun hx => absurd hx (by simp), fun hx => ?_⟩⟩
      rcases hx with hv | hc
      · linarith [h2.2]
      · linarith [h2.1, hc.2]
    · refine ⟨⟨fun hx => absurd hx (by simp), fun hx => absurd hx h1⟩,
        ⟨fun hx => absurd hx (by simp), fun hx => absurd hx h2⟩,
        ⟨fun _ => ?_, fun _ => rfl⟩⟩
      by_cases hv : regimeVol ph < 2
      · right
        constructor
        · by_contra hc
          exact h1 ⟨by linarith, hv⟩
        · by_contra hc
          exact h2 ⟨by linarith, hv⟩
      · left
        linarith [not_lt.mp hv]
  · by_cases h : ph.length < 12
    · have h12 : ph.length - 12 = 0 := by omega
      rw [last12, h12, List.drop_zero]
    · have hl2 : (last12 ph).length = 12 := by omega
      have hsame : last12 (last12 ph) = last12 ph := by
        rw [last12, hl2]
        simp
      have h2 : ¬((last12 ph).length < 12) := by omega
      rw [detectMarketRegime, detectMarketRegime, if_neg h, if_neg h2]
      rw [regimeChange, regimeChange, regimeVol, regimeVol, hsame]

theorem regime_characterisation_witness :
    12 ≤ windowW.length ∧
    (detectMarketRegime windowW = .trendingUp ↔
      3 < regimeChange windowW ∧ regimeVol windowW < 2) :=
  ⟨by decide, ((regime_characterisation windowW).2.1 (by decide)).1⟩

/-- The strategy keys of `learning_data["strategy_performance"]`. -/
inductive StratTag
  | momentum | dipBuying | breakout
  deriving DecidableEq, Repr

/-- One `strategy_performance` record. -/
structure StratPerf where
  wins : Nat
  losses : Nat
  totalPnl : ℚ
  deriving DecidableEq, Repr

/-- `learning_data["optimal_params"]`. -/
structure OptimalParams where
  momentumThreshold : ℚ
  dipThreshold : ℚ
  takeProfit : ℚ
  stopLoss : ℚ
  positionSize : ℚ
  deriving DecidableEq, Repr

/-- The adaptation messages `adapt_strategy` can append, as tags. -/
inductive AdaptChange
  | raisedMomentumThreshold | loweredMomentumThreshold | widenedStopLoss
  | raisedTakeProfit | loweredTakeProfit
  deriving DecidableEq, Repr

/-- One entry of `learning_data["adaptation_history"]`: timestamp, the list
of changes, and the resulting parameter snapshot. -/
structure AdaptEntry where
  timestamp : Nat
  changes : List AdaptChange
  newParams : OptimalParams
  deriving DecidableEq, Repr

/-- `learning_data` as far as `adapt_strategy` and `execute_trade` touch it
(`auto_paper_trader.py`, lines 65-93). -/
structure LearningData where
  momentumPerf : StratPerf
  dipPerf : StratPerf
  breakoutPerf : StratPerf
  optimalParams : OptimalParams
  adaptationHistory : List AdaptEntry
  deriving DecidableEq, Repr

/-- The only position tag ever written is `"LONG"`. -/
inductive PosSide
  | LONG
  deriving DecidableEq, Repr

/-- One entry of `state["trades"]`: a BUY carries its strategy tag, a SELL
carries the realized P&L. -/
inductive AutoTrade
  | buyT (usdcSpent maticReceived price : ℚ) (strat : StratTag)
  | sellT (maticSold usdcReceived price pnl : ℚ)
  deriving DecidableEq, Repr

/-- `trade.get("strategy", "momentum")`. -/
def AutoTrade.getStrat : AutoTrade → StratTag
  | .buyT _ _ _ st => st
  | .sellT _ _ _ _ => .momentum

/-- The trading state of `auto_paper_trader.py` (`load_state`, lines 39-63;
fields that only feed reports are kept where `execute_trade` writes them). -/
structure AutoState where
  balanceUsdc : ℚ
  balanceMatic : ℚ
  trades : List AutoTrade
  totalPnl : ℚ
  winCount : Nat
  lossCount : Nat
  hourlyPrices : List ℚ
  position : Option PosSide
  entryPrice : Option ℚ
  tradesToday : Nat
  dailyPnl : ℚ
  consecutiveLosses : Nat
  bestTrade : Option ℚ
  worstTrade : Option ℚ
  deriving DecidableEq, Repr

/-- The reason strings of `adaptive_strategy`, as tags; only the momentum
reason contains the substring `"momentum"` tested by `execute_trade`. -/
inductive SignalReason
  | collectingData | momentum | dip | breakout | takeProfit | stopLoss | trailingStop | holdMsg
  deriving DecidableEq, Repr

/-- `'momentum' if 'momentum' in reason.lower() else 'dip_buying'`
(`auto_paper_trader.py`, line 268). -/
def reasonStrat : SignalReason → StratTag
  | .momentum => .momentum
  | _ => .dipBuying

inductive TSignal
  | BUY | SELL
  deriving DecidableEq, Repr

/-- `adaptive_strategy` (`auto_paper_trader.py`, lines 201-246): needs two
price samples, then momentum/dip/breakout entries with no position, and
take-profit / stop-loss / trailing-stop exits with a LONG position.  The
current price has already been appended to `hourly_prices` by `main`, so
`hourly_prices[-2]` is the previous sample. -/
def adaptiveStrategy (s : AutoState) (price : ℚ) (ld : LearningData) :
    Option TSignal × SignalReason :=
  if s.hourlyPrices.length < 2 then (none, .collectingData)
  else
    let change5m := (price / s.hourlyPrices.dropLast.getLastD 0 - 1) * 100
    let change1h :=
      if 12 ≤ s.hourlyPrices.length then (price / s.hourlyPrices.headD 0 - 1) * 100 else 0
    let regime := detectMarketRegime s.hourlyPrices
    match s.position with
    | none =>
      if ld.optimalParams.momentumThreshold ≤ change5m then (some .BUY, .momentum)
      else if change5m ≤ ld.optimalParams.dipThreshold then (some .BUY, .dip)
      else if regime = .trendingUp ∧ 5 < change1h then (some .BUY, .breakout)
      else (none, .holdMsg)
    | some .LONG =>
      let entry := s.entryPrice.getD price
      let pnlPct := (price / entry - 1) * 100
      if ld.optimalParams.takeProfit ≤ pnlPct then (some .SELL, .takeProfit)
      else if pnlPct ≤ ld.optimalParams.stopLoss then (some .SELL, .stopLoss)
      else if regime = .trendingUp ∧ 3 < pnlPct then (some .SELL, .trailingStop)
      else (none, .holdMsg)

/-- Bump one strategy's performance record. -/
def updatePerf (ld : LearningData) (st : StratTag) (f : StratPerf → StratPerf) :
    LearningData :=
  match st with
  | .momentum => { ld with momentumPerf := f ld.momentumPerf }
  | .dipBuying => { ld with dipPerf := f ld.dipPerf }
  | .breakout => { ld with breakoutPerf := f ld.breakoutPerf }

/-- `execute_trade` (`auto_paper_trader.py`, lines 248-326): a BUY spends
`min(balance * position_size, 1000)` USDC when at least 100 USDC is held; a
SELL liquidates the whole MATIC balance, realizes
`(price - entry) * matic_sold`, updates win/loss counters, consecutive
losses, best/worst trade and the strategy performance of the entry trade. -/
def executeTrade (s : AutoState) (sig : TSignal) (price : ℚ) (reason : SignalReason)
    (ld : LearningData) : Bool × AutoState × LearningData :=
  match sig with
  | .BUY =>
    if 100 ≤ s.balanceUsdc then
      let tradeAmount := min (s.balanceUsdc * ld.optimalParams.positionSize) 1000
      let maticReceived := tradeAmount / price
      (true,
       { s with balanceUsdc := s.balanceUsdc - tradeAmount,
                balanceMatic := s.balanceMatic + maticReceived,
                position := some .LONG,
                entryPrice := some price,
                trades := s.trades ++ [.buyT tradeAmount maticReceived price (reasonStrat reason)],
                tradesToday := s.tradesToday + 1 }, ld)
    else (false, s, ld)
  | .SELL =>
    if 0 < s.balanceMatic then
      let maticSold := s.balanceMatic
      let usdcReceived := maticSold * price
      let entry := s.entryPrice.getD price
      let pnl := (price - entry) * maticSold
      let strat := (s.trades.getLastD (.sellT 0 0 0 0)).getStrat
      let ld' :=
        if 0 < pnl then
          updatePerf ld strat fun p => { p with wins := p.wins + 1, totalPnl := p.totalPnl + pnl }
        else
          updatePerf ld strat fun p =>
            { p with losses := p.losses + 1, totalPnl := p.totalPnl + pnl }
      (true,
       { s with balanceUsdc := s.balanceUsdc + usdcReceived,
                balanceMatic := 0,
                position := none,
                totalPnl := s.totalPnl + pnl,
                dailyPnl := s.dailyPnl + pnl,
                winCount := if 0 < pnl then s.winCount + 1 else s.winCount,
                lossCount := if 0 < pnl then s.lossCount else s.lossCount + 1,
                consecutiveLosses := if 0 < pnl then 0 else s.consecutiveLosses + 1,
                bestTrade := match s.bestTrade with
                  | none => some pnl
                  | some b => if b < pnl then some pnl else some b,
                worstTrade := match s.worstTrade with
                  | none => some pnl
                  | some b => if pnl < b then some pnl else some b,
                trades := s.trades ++ [.sellT maticSold usdcReceived price pnl] }, ld')
    else (false, s, ld)

/-- `adapt_strategy` (`auto_paper_trader.py`, lines 155-199): momentum
threshold adjustment after 5 finished momentum trades, stop-loss widening
to −4 with counter reset after 3 consecutive losses, regime-dependent
take-profit, and — when any change happened — exactly one appended
`adaptation_history` entry carrying the timestamp, the change list and a
snapshot of the resulting parameters. -/
def adaptStrategy (now : Nat) (ld : LearningData) (s : AutoState) :
    List AdaptChange × LearningData × AutoState :=
  let p := ld.optimalParams
  let totalMomentum := ld.momentumPerf.wins + ld.momentumPerf.losses
  let p1ch1 : OptimalParams × List AdaptChange :=
    if 5 ≤ totalMomentum then
      let winRate : ℚ := (ld.momentumPerf.wins : ℚ) / (totalMomentum : ℚ)
      if winRate < 2/5 then
        ({ p with momentumThreshold := min (p.momentumThreshold + 1/2) 5 },
         [.raisedMomentumThreshold])
      else if 3/5 < winRate then
        ({ p with momentumThreshold := max (p.momentumThreshold - 3/10) 1 },
         [.loweredMomentumThreshold])
      else (p, [])
    else (p, [])
  let p2ch2s2 : OptimalParams × List AdaptChange × AutoState :=
    if 3 ≤ s.consecutiveLosses then
      ({ p1ch1.1 with stopLoss := -4 }, [.widenedStopLoss], { s with consecutiveLosses := 0 })
    else (p1ch1.1, [], s)
  let regime := detectMarketRegime s.hourlyPrices
  let p3ch3 : OptimalParams × List AdaptChange :=
    if regime = .trendingUp then ({ p2ch2s2.1 with takeProfit := 7 }, [.raisedTakeProfit])
    else if regime = .choppy then ({ p2ch2s2.1 with takeProfit := 3 }, [.loweredTakeProfit])
    else (p2ch2s2.1, [])
  let changes := p1ch1.2 ++ p2ch2s2.2.1 ++ p3ch3.2
  let ld' := { ld with optimalParams := p3ch3.1 }
  let ld'' :=
    if changes.isEmpty then ld'
    else { ld' with adaptationHistory := ld'.adaptationHistory ++ [⟨now, changes, p3ch3.1⟩] }
  (changes, ld'', p2ch2s2.2.2)

/-- `load_state` defaults with two equal price samples already collected at
$0.50, so that `adaptive_strategy` is past its warm-up guard. -/
def autoState0 : AutoState :=
  { balanceUsdc := 10000, balanceMatic := 0, trades := [], totalPnl := 0,
    winCount := 0, lossCount := 0, hourlyPrices := [1/2, 1/2], position := none,
    entryPrice := none, tradesToday := 0, dailyPnl := 0, consecutiveLosses := 0,
    bestTrade := none, worstTrade := none }

/-- `load_learning_data` defaults (`auto_paper_trader.py`, lines 71-93). -/
def learning0 : LearningData :=
  { momentumPerf := ⟨0, 0, 0⟩, dipPerf := ⟨0, 0, 0⟩, breakoutPerf := ⟨0, 0, 0⟩,
    optimalParams := { momentumThreshold := 2, dipThreshold := -3, takeProfit := 5,
                       stopLoss := -3, positionSize := 1/10 },
    adaptationHistory := [] }

/-- Scenario A, step 1: a BUY at $0.50 from the default state. -/
def scenarioBuy : Bool × AutoState × LearningData :=
  executeTrade autoState0 .BUY (1/2) .momentum learning0

/-- Scenario A, step 2: the next tick appends the new price $0.55. -/
def scenarioMid : AutoState :=
  { scenarioBuy.2.1 with hourlyPrices := scenarioBuy.2.1.hourlyPrices ++ [11/20] }

/-- Scenario A, step 3: the SELL signalled by the take-profit exit check. -/
def scenarioSell : Bool × AutoState × LearningData :=
  executeTrade scenarioMid .SELL (11/20) .takeProfit scenarioBuy.2.2

/-- C7.  Scenario A end to end: from cash 10,000 at price 0.50 the buy
spends 1,000 and yields a 2,000-MATIC long at entry 0.50; at price 0.55 the
exit check fires the default 5% take-profit, the position closes fully,
cash rises by 2,000·0.55 = 1,100 to 10,100, realized P&L is exactly +100
and the win counter increments to 1. -/
theorem scenarioA_arithmetic :
    scenarioBuy.1 = true ∧
    scenarioBuy.2.1.balanceUsdc = 9000 ∧
    scenarioBuy.2.1.balanceMatic = 2000 ∧
    scenarioBuy.2.1.position = some .LONG ∧
    scenarioBuy.2.1.entryPrice = some (1/2) ∧
    learning0.optimalParams.takeProfit = 5 ∧
    adaptiveStrategy scenarioMid (11/20) scenarioBuy.2.2 = (some .SELL, .takeProfit) ∧
    scenarioSell.1 = true ∧
    scenarioSell.2.1.balanceUsdc = 10100 ∧
    scenarioSell.2.1.balanceUsdc = scenarioBuy.2.1.balanceUsdc + 1100 ∧
    scenarioSell.2.1.balanceMatic = 0 ∧
    scenarioSell.2.1.position = none ∧
    scenarioSell.2.1.totalPnl = 100 ∧
    scenarioSell.2.1.winCount = 1 ∧
    scenarioSell.2.1.lossCount = 0 := by
  have hbuy : scenarioBuy =
      (true,
       { autoState0 with balanceUsdc := 9000, balanceMatic := 2000, position := some .LONG,
                         entryPrice := some (1/2),
                         trades := [.buyT 1000 2000 (1/2) .momentum], tradesToday := 1 },
       learning0) := by
    rw [scenarioBuy, executeTrade]
    rw [if_pos (by norm_num [autoState0])]
    norm_num [autoState0, learning0, reasonStrat]
  rw [hbuy]
  rw [scenarioSell, scenarioMid, hbuy]
  norm_num [executeTrade, adaptiveStrategy, autoState0, learning0, detectMarketRegime,
    last12, AutoTrade.getStrat, updatePerf]

/-- C8.  Whenever `adapt_strategy` runs with `consecutive_losses ≥ 3` it
sets the stop-loss parameter to −4 (a strict widening whenever the current
value is tighter than −4, in particular from the default −3), resets the
loss counter to 0, and appends exactly one entry to the adaptation log,
carrying the timestamp, the list of changes (which contains the widening)
and the snapshot of the resulting parameters. -/
theorem adapt_three_losses (now : Nat) (ld : LearningData) (s : AutoState)
    (h : 3 ≤ s.consecutiveLosses) :
    (adaptStrategy now ld s).2.1.optimalParams.stopLoss = -4 ∧
    (-4 < ld.optimalParams.stopLoss →
      (adaptStrategy now ld s).2.1.optimalParams.stopLoss < ld.optimalParams.stopLoss) ∧
    (adaptStrategy now ld s).2.2.consecutiveLosses = 0 ∧
    (adaptStrategy now ld s).2.1.adaptationHistory =
      ld.adaptationHistory ++
        [⟨now, (adaptStrategy now ld s).1, (adaptStrategy now ld s).2.1.optimalParams⟩] ∧
    AdaptChange.widenedStopLoss ∈ (adaptStrategy now ld s).1 := by
  simp only [adaptStrategy]
  split_ifs <;> simp_all

theorem adapt_three_losses_witness :
    3 ≤ ({ autoState0 with consecutiveLosses := 3 } : AutoState).consecutiveLosses ∧
    (adaptStrategy 0 learning0
      { autoState0 with consecutiveLosses := 3 }).2.1.optimalParams.stopLoss = -4 ∧
    (adaptStrategy 0 learning0
      { autoState0 with consecutiveLosses := 3 }).2.2.consecutiveLosses = 0 := by
  have h := adapt_three_losses 0 learning0 { autoState0 with consecutiveLosses := 3 }
    (by decide)
  exact ⟨by decide, h.1, h.2.2.1⟩

/-- The values a numpy float expression can take once a division by zero is
in play: a finite rational, `nan`, or a signed infinity. -/
inductive Fnum
  | finite (q : ℚ) | nan | posInf | negInf
  deriving DecidableEq, Repr

/-- numpy float division `a / b` with IEEE semantics at `b = 0`: it raises
nothing — `0.0/0.0` is `nan`, `±a/0.0` is a signed infinity. -/
def fdiv (a b : ℚ) : Fnum :=
  if b ≠ 0 then .finite (a / b)
  else if a = 0 then .nan
  else if 0 < a then .posInf else .negInf

/-- IEEE `<` against a rational constant: `nan` compares false. -/
def Fnum.ltQ : Fnum → ℚ → Bool
  | .finite q, c => decide (q < c)
  | .nan, _ => false
  | .posInf, _ => false
  | .negInf, _ => true

/-- IEEE `>` against a rational constant: `nan` compares false. -/
def Fnum.gtQ : Fnum → ℚ → Bool
  | .finite q, c => decide (c < q)
  | .nan, _ => false
  | .posInf, _ => true
  | .negInf, _ => false

/-- `min(1.0, abs(deviation) / 3)` for the strong-signal branches. -/
def Fnum.strongConf : Fnum → ℚ
  | .finite q => min 1 (|q| / 3)
  | _ => 1

/-- `MeanReversionStrategy.analyze` (`strategies.py`, lines 356-411) as a
function of the price window.  `np.mean(prices)` and `np.std(prices)` are
binary64 library computations and enter as the oracles `npMean` and
`npStd`; the rest is the source's branch structure, with the z-score
division performed by `fdiv`, which never raises.  Below 24 samples the
result is hold/0; otherwise the z-score of the last price against the
window mean decides buy/sell/hold. -/
def meanReversionAnalyze (npMean npStd : List ℚ → ℚ) (prices : List ℚ) : Signal :=
  if prices.length < 24 then ⟨.hold, 0⟩
  else
    let mean := npMean prices
    let std := npStd prices
    let current := prices.getLastD 0
    let deviation := fdiv (current - mean) std
    if deviation.ltQ (-2) then ⟨.buy, deviation.strongConf⟩
    else if deviation.gtQ 2 then ⟨.sell, deviation.strongConf⟩
    else if deviation.ltQ (-(1/2)) && deviation.gtQ (-2) then ⟨.buy, 3/10⟩
    else if deviation.gtQ (1/2) && deviation.ltQ 2 then ⟨.sell, 3/10⟩
    else ⟨.hold, 0⟩

/-- The binary64 double nearest 0.1: `3602879701896397 · 2⁻⁵⁵`. -/
def c01 : ℚ := 3602879701896397 / 2^55

/-- The float mean `np.mean` returns on 24 copies of `c01`.  The exact sum
`24 · c01` is an odd multiple of `2⁻⁵²` (mantissa `10808639105689191`, 54
bits), so it is not a double, no float sum rounds the mean back to `c01`
(`float_sum_never_exact`), and numpy's pairwise summation lands one unit
in the last place above: `mean01 = c01 + 2⁻⁵⁶`. -/
def mean01 : ℚ := c01 + 1/2^56

/-- The float std `np.std` returns there: `c01 - mean01 = -2⁻⁵⁶` is
computed exactly (the operands are within a factor of two), its square
`2⁻¹¹²` and the mean of 24 equal squares are exact dyadics, and the square
root of the perfect square is exact — so the float std is exactly
`|c01 - mean01| = 2⁻⁵⁶`. -/
def std01 : ℚ := 1/2^56

/-- No binary64 mean of 24 copies of `c01` can be `c01` itself: every
double sum `s` in `[2,4)` lies on the grid `k · 2⁻⁵¹`, but rounding `s/24`
to `c01` would need `|s - 24·c01| < 3·2⁻⁵⁴`, and the odd multiple of
`2⁻⁵²` that is `24·c01` is never that close to the even grid. -/
theorem float_sum_never_exact (k : ℤ) :
    ¬ |(k : ℚ) / 2^51 - 24 * c01| < 3 / 2^54 := by
  intro h
  have he : (k : ℚ) / 2^51 - 24 * c01 = ((2 * k - 10808639105689191 : ℤ) : ℚ) / 2^52 := by
    rw [c01]
    push_cast
    ring
  rw [he, abs_div, abs_of_nonneg (by positivity : (0:ℚ) ≤ (2:ℚ)^52)] at h
  have hpos : (0:ℚ) < (2:ℚ)^52 := by positivity
  have h1 : |((2 * k - 10808639105689191 : ℤ) : ℚ)| < 1 := by
    have h2 := (div_lt_iff₀ hpos).mp h
    calc |((2 * k - 10808639105689191 : ℤ) : ℚ)| < 3 / 2^54 * 2^52 := h2
      _ < 1 := by norm_num
  have h3 : |2 * k - 10808639105689191| < 1 := by
    rw [← Int.cast_abs] at h1
    exact_mod_cast h1
  obtain ⟨h4a, h4b⟩ := abs_lt.mp h3
  omega

/-- C10 counterexample.  On the window of 24 copies of the double nearest
0.1, the float mean is one ulp above the constant (numpy pairwise
summation; `float_sum_never_exact` shows no summation order can return the
constant), the float std is exactly that ulp, the z-score is exactly −1,
and `analyze` returns buy with confidence 0.3 — not the claimed hold with
confidence 0. -/
theorem meanReversion_float_mean_breaks_hold :
    meanReversionAnalyze (fun _ => mean01) (fun _ => std01) (List.replicate 24 c01) =
      ⟨.buy, 3/10⟩ ∧
    (⟨TAction.buy, 3/10⟩ : Signal) ≠ ⟨.hold, 0⟩ := by
  constructor
  · have hne : (List.replicate 24 c01) ≠ [] := by simp
    have hcur : (List.replicate 24 c01).getLastD 0 = c01 := by
      rw [List.getLastD_eq_getLast?, List.getLast?_eq_getLast _ hne]
      simp [List.eq_of_mem_replicate (List.getLast_mem hne)]
    have hdev : fdiv (c01 - mean01) std01 = .finite (-1) := by
      rw [fdiv, if_pos (by rw [std01]; positivity)]
      rw [show c01 - mean01 = -std01 from by rw [mean01, std01]; ring]
      rw [neg_div, div_self (by rw [std01]; positivity)]
    rw [meanReversionAnalyze, if_neg (by simp)]
    simp only []
    rw [hcur, hdev]
    norm_num [Fnum.ltQ, Fnum.gtQ]
  · simp

/-- C10 amended.  On every window of at least 24 equal prices the z-score
division never raises — `fdiv` yields `nan` or a signed infinity and every
branch comparison with `nan` is false — but the returned signal depends on
the float rounding of the library mean: with the float std equal to
`|c - mean|` (as it is in binary64 whenever the mean is within a few ulp
of the constant), `analyze` returns hold/0 exactly when the float mean is
exact, and buy/0.3 (z-score exactly −1) or sell/0.3 (z-score exactly +1)
when the mean rounded up or down. -/
theorem meanReversion_constant_outcomes (npMean npStd : List ℚ → ℚ)
    (prices : List ℚ) (c : ℚ) (hlen : 24 ≤ prices.length)
    (hconst : ∀ p ∈ prices, p = c)
    (hstd : npStd prices = |c - npMean prices|) :
    (npMean prices = c → meanReversionAnalyze npMean npStd prices = ⟨.hold, 0⟩) ∧
    (c < npMean prices → meanReversionAnalyze npMean npStd prices = ⟨.buy, 3/10⟩) ∧
    (npMean prices < c → meanReversionAnalyze npMean npStd prices = ⟨.sell, 3/10⟩) := by
  have hne : prices ≠ [] := by
    intro hnil
    rw [hnil] at hlen
    simp at hlen
  have hcur : prices.getLastD 0 = c := by
    rw [List.getLastD_eq_getLast?, List.getLast?_eq_getLast prices hne]
    simp [hconst _ (List.getLast_mem hne)]
  refine ⟨fun hm => ?_, fun hm => ?_, fun hm => ?_⟩
  · rw [meanReversionAnalyze, if_neg (by omega)]
    simp only []
    rw [hcur, hstd, hm, sub_self, abs_zero]
    norm_num [fdiv, Fnum.ltQ, Fnum.gtQ]
  · rw [meanReversionAnalyze, if_neg (by omega)]
    simp only []
    have hd : npMean prices - c ≠ 0 := sub_ne_zero.mpr (ne_of_gt hm)
    have habs : |c - npMean prices| = npMean prices - c := by
      rw [abs_of_neg (by linarith)]
      ring
    have hdev : fdiv (c - npMean prices) (npMean prices - c) = .finite (-1) := by
      rw [fdiv, if_pos hd]
      rw [show c - npMean prices = -(npMean prices - c) from by ring]
      rw [neg_div, div_self hd]
    rw [hcur, hstd, habs, hdev]
    norm_num [Fnum.ltQ, Fnum.gtQ]
  · rw [meanReversionAnalyze, if_neg (by omega)]
    simp only []
    have hd : c - npMean prices ≠ 0 := sub_ne_zero.mpr (ne_of_gt hm)
    have habs : |c - npMean prices| = c - npMean prices := abs_of_pos (by linarith)
    have hdev : fdiv (c - npMean prices) (c - npMean prices) = .finite 1 := by
      rw [fdiv, if_pos hd, div_self hd]
    rw [hcur, hstd, habs, hdev]
    norm_num [Fnum.ltQ, Fnum.gtQ]

theorem meanReversion_constant_outcomes_witness :
    24 ≤ (List.replicate 24 (2:ℚ)).length ∧
    (fun _ : List ℚ => (0:ℚ)) (List.replicate 24 (2:ℚ)) =
      |2 - (fun _ : List ℚ => (2:ℚ)) (List.replicate 24 (2:ℚ))| ∧
    meanReversionAnalyze (fun _ => 2) (fun _ => 0) (List.replicate 24 2) = ⟨.hold, 0⟩ := by
  refine ⟨by simp, by norm_num, ?_⟩
  exact (meanReversion_constant_outcomes (fun _ => 2) (fun _ => 0) (List.replicate 24 2) 2
    (by simp) (fun p hp => List.eq_of_mem_replicate hp) (by norm_num)).1 rfl

end UniswapTrader
